import Mathlib

/-!
Verification of the memoizing-cache design of `next-graphql-api`.

The repository's core component is a memoizing cache (`server/lib/cache.js`)
shared by every backend adapter.  The cache source itself is not part of the
source snapshot; the model below is built from the specification's data model
and operation contract (spec §3-§4.3, §5): a store mapping each key either to
a cache entry (value plus absolute expiration instant) or to an in-flight
production record (producer id, ttl, coalesced waiters), with the three-way
`cached` dispatch, asynchronous producer delivery, and a periodic sweeper.
Bookkeeping is atomic (single-threaded cooperative scheduling, spec §5), so
the system is modelled as a deterministic state machine over explicit events:
a `cached(key, ttl, producer)` call, the asynchronous completion of a pending
production, and a sweeper tick.  Producers are named by numeric ids; an
environment `env : Nat → Except E V` fixes each producer's eventual outcome.
-/

deriving instance DecidableEq for Except

namespace MemCache

/-- Modelled from the spec: an In-flight Production Record (spec §3) for a key,
holding the id of the single outstanding producer invocation, the ttl supplied
by the call that started the production, and the call ids of every coalesced
waiter (the initiating caller included).  `server/lib/cache.js` is not under
`src/`. -/
structure PendingRec where
  producerId : Nat
  ttl : Nat
  waiters : List Nat
  deriving DecidableEq, Repr

/-- Modelled from the spec: the store maps a key either to a Cache Entry
(value and absolute expiration instant) or to an In-flight Production Record
(spec §3, "key -> (Cache Entry | In-flight Production Record)"). -/
inductive StoreVal (V : Type) where
  | entry (value : V) (expiresAt : Nat)
  | pend (pr : PendingRec)
  deriving DecidableEq, Repr

/-- Modelled from the spec: the full cache state — the store, the log of
producer invocations `(key, producerId)` (most recent first), and the log of
delivered per-call outcomes `(callId, outcome)` (most recent first). -/
structure CacheState (E V : Type) where
  store : List (String × StoreVal V)
  invocations : List (String × Nat)
  results : List (Nat × Except E V)
  deriving DecidableEq, Repr

/-- The state of a freshly constructed cache: empty store, no invocations,
no delivered results. -/
def emptyState {E V : Type} : CacheState E V := ⟨[], [], []⟩

/-- Association-list read of the store, first binding for the key wins
(mirrors a JS `Map.get`). -/
def getKey {V : Type} (store : List (String × StoreVal V)) (k : String) :
    Option (StoreVal V) :=
  (store.find? (fun b => decide (b.1 = k))).map Prod.snd

/-- Association-list write: installs/replaces the binding for `k`
(mirrors a JS `Map.set`). -/
def setKey {V : Type} (store : List (String × StoreVal V)) (k : String)
    (val : StoreVal V) : List (String × StoreVal V) :=
  (k, val) :: store.filter (fun b => decide (b.1 ≠ k))

/-- Association-list delete: removes any binding for `k`
(mirrors a JS `Map.delete`). -/
def removeKey {V : Type} (store : List (String × StoreVal V)) (k : String) :
    List (String × StoreVal V) :=
  store.filter (fun b => decide (b.1 ≠ k))

/-- Modelled from the spec: the atomic bookkeeping of one `cached(key, ttl,
producer)` call at instant `now` by caller `cid` (spec §4.1 steps 1-3).
A fresh entry resolves the caller immediately; an in-flight record coalesces
the caller onto the existing production; otherwise an in-flight record is
installed and the producer `pid` is invoked (recorded in `invocations`). -/
def callStep {E V : Type} (now cid : Nat) (k : String) (ttl pid : Nat)
    (s : CacheState E V) : CacheState E V :=
  match getKey s.store k with
  | some (.entry v exp) =>
      if now < exp then
        { s with results := (cid, Except.ok v) :: s.results }
      else
        { s with store := setKey s.store k (.pend ⟨pid, ttl, [cid]⟩),
                 invocations := (k, pid) :: s.invocations }
  | some (.pend pr) =>
      { s with store := setKey s.store k (.pend ⟨pr.producerId, pr.ttl, cid :: pr.waiters⟩) }
  | none =>
      { s with store := setKey s.store k (.pend ⟨pid, ttl, [cid]⟩),
               invocations := (k, pid) :: s.invocations }

/-- Modelled from the spec: completion of the outstanding production for `k`
at instant `now` (spec §4.1 step 3).  On success the record is replaced by an
entry expiring at `now + ttl` and every waiter resolves with the value; on
failure the record is removed outright (failures are never cached) and every
waiter rejects with the same failure, unmodified. -/
def deliverStep {E V : Type} (env : Nat → Except E V) (now : Nat) (k : String)
    (s : CacheState E V) : CacheState E V :=
  match getKey s.store k with
  | some (.pend pr) =>
      match env pr.producerId with
      | Except.ok v =>
          { store := setKey s.store k (.entry v (now + pr.ttl)),
            invocations := s.invocations,
            results := pr.waiters.map (fun c => (c, Except.ok v)) ++ s.results }
      | Except.error e =>
          { store := removeKey s.store k,
            invocations := s.invocations,
            results := pr.waiters.map (fun c => (c, Except.error e)) ++ s.results }
  | _ => s

/-- Modelled from the spec: the sweeper's per-binding keep test (spec §4.3) —
a Cache Entry survives the tick iff it is still fresh; an In-flight Production
Record always survives. -/
def keepAtSweep {V : Type} (now : Nat) (b : String × StoreVal V) : Bool :=
  match b.2 with
  | .entry _ exp => decide (now < exp)
  | .pend _ => true

/-- Modelled from the spec: one sweeper tick at instant `now` (spec §4.3):
iterates the store and removes exactly the Cache Entries whose
`expiresAt <= now`, never touching pending records. -/
def sweepStep {E V : Type} (now : Nat) (s : CacheState E V) : CacheState E V :=
  { s with store := s.store.filter (keepAtSweep now) }

/-- An observable event of the cache system: a `cached` call, an asynchronous
producer completion, or a sweeper tick, each stamped with its instant. -/
inductive CacheEvent where
  | call (now cid : Nat) (key : String) (ttl pid : Nat)
  | deliver (now : Nat) (key : String)
  | sweep (now : Nat)
  deriving DecidableEq, Repr

/-- The key an event concerns (`none` for a sweeper tick). -/
def eventKey : CacheEvent → Option String
  | .call _ _ k _ _ => some k
  | .deliver _ k => some k
  | .sweep _ => none

/-- Dispatch of one event against the state. -/
def stepEvent {E V : Type} (env : Nat → Except E V) :
    CacheEvent → CacheState E V → CacheState E V
  | .call now cid k ttl pid, s => callStep now cid k ttl pid s
  | .deliver now k, s => deliverStep env now k s
  | .sweep now, s => sweepStep now s

/-- Run of an event trace, left to right. -/
def run {E V : Type} (env : Nat → Except E V) (evs : List CacheEvent)
    (s : CacheState E V) : CacheState E V :=
  evs.foldl (fun st e => stepEvent env e st) s

/-- The outcome delivered to call `cid`, when one has been delivered. -/
def lookupResult {E V : Type} (s : CacheState E V) (cid : Nat) :
    Option (Except E V) :=
  (s.results.find? (fun r => decide (r.1 = cid))).map Prod.snd

/-- How many producer invocations the cache has performed for key `k`. -/
def invocationCount {E V : Type} (s : CacheState E V) (k : String) : Nat :=
  s.invocations.countP (fun r => decide (r.1 = k))

/-- A burst of `cached` calls for the same key/ttl/producer, each given as
`(now, cid)`, processed in order. -/
def callBurst {E V : Type} (calls : List (Nat × Nat)) (k : String)
    (ttl pid : Nat) (s : CacheState E V) : CacheState E V :=
  calls.foldl (fun st c => callStep c.1 c.2 k ttl pid st) s

/-- The freshness check a `cached` call performs fails and no production is
in flight for `k`: the key is absent, or holds an entry already expired at
`now`. -/
def notFreshNoPend {E V : Type} (now : Nat) (k : String) (s : CacheState E V) :
    Bool :=
  match getKey s.store k with
  | some (.entry _ exp) => decide (exp ≤ now)
  | some (.pend _) => false
  | none => true

theorem getKey_setKey_self {V : Type} (store : List (String × StoreVal V))
    (k : String) (val : StoreVal V) : getKey (setKey store k val) k = some val := by
  unfold getKey setKey
  rw [List.find?_cons_of_pos _ (by simp)]
  rfl

theorem find?_filter_ne {V : Type} (store : List (String × StoreVal V))
    (k b : String) (h : b ≠ k) :
    (store.filter (fun x => decide (x.1 ≠ k))).find? (fun x => decide (x.1 = b))
      = store.find? (fun x => decide (x.1 = b)) := by
  induction store with
  | nil => rfl
  | cons a tl ih =>
    by_cases hk : a.1 = k
    · have hkb : a.1 ≠ b := by rw [hk]; exact Ne.symm h
      rw [List.filter_cons_of_neg (by simp [hk]), List.find?_cons_of_neg _ (by simp [hkb])]
      exact ih
    · rw [List.filter_cons_of_pos (by simp [hk])]
      by_cases hb : a.1 = b
      · rw [List.find?_cons_of_pos _ (by simp [hb]), List.find?_cons_of_pos _ (by simp [hb])]
      · rw [List.find?_cons_of_neg _ (by simp [hb]), List.find?_cons_of_neg _ (by simp [hb])]
        exact ih

theorem getKey_setKey_other {V : Type} (store : List (String × StoreVal V))
    (k b : String) (val : StoreVal V) (h : b ≠ k) :
    getKey (setKey store k val) b = getKey store b := by
  unfold getKey setKey
  rw [List.find?_cons_of_neg _ (by simp [Ne.symm h]), find?_filter_ne store k b h]

theorem getKey_removeKey_self {V : Type} (store : List (String × StoreVal V))
    (k : String) : getKey (removeKey store k) k = none := by
  unfold getKey removeKey
  rw [List.find?_eq_none.mpr]
  · rfl
  · intro x hx
    have := (List.mem_filter.mp hx).2
    simp at this
    simp [this]

theorem getKey_removeKey_other {V : Type} (store : List (String × StoreVal V))
    (k b : String) (h : b ≠ k) :
    getKey (removeKey store k) b = getKey store b := by
  unfold getKey removeKey
  rw [find?_filter_ne store k b h]

theorem callStep_stale {E V : Type} (now cid : Nat) (k : String) (ttl pid : Nat)
    (s : CacheState E V) (h : notFreshNoPend now k s = true) :
    callStep now cid k ttl pid s =
      { s with store := setKey s.store k (.pend ⟨pid, ttl, [cid]⟩),
               invocations := (k, pid) :: s.invocations } := by
  unfold notFreshNoPend at h
  unfold callStep
  cases hg : getKey s.store k with
  | none => rfl
  | some val =>
    cases val with
    | entry v exp =>
      rw [hg] at h
      have hle : exp ≤ now := by simpa using h
      dsimp only
      rw [if_neg (Nat.not_lt.mpr hle)]
    | pend pr => rw [hg] at h; cases h

theorem callBurst_coalesce {E V : Type} (k : String) (ttl pid : Nat)
    (calls : List (Nat × Nat)) :
    ∀ (s : CacheState E V) (pr : PendingRec),
    getKey s.store k = some (.pend pr) →
    ∃ pr' : PendingRec,
      getKey (callBurst calls k ttl pid s).store k = some (.pend pr') ∧
      pr'.producerId = pr.producerId ∧ pr'.ttl = pr.ttl ∧
      (∀ c ∈ pr.waiters, c ∈ pr'.waiters) ∧
      (∀ c ∈ calls.map Prod.snd, c ∈ pr'.waiters) ∧
      (callBurst calls k ttl pid s).invocations = s.invocations ∧
      (callBurst calls k ttl pid s).results = s.results := by
  induction calls with
  | nil =>
    intro s pr h
    exact ⟨pr, h, rfl, rfl, fun c hc => hc,
      fun c hc => absurd hc (List.not_mem_nil c), rfl, rfl⟩
  | cons c tl ih =>
    intro s pr h
    have hstep : callStep c.1 c.2 k ttl pid s =
        { s with store := setKey s.store k (.pend ⟨pr.producerId, pr.ttl, c.2 :: pr.waiters⟩) } := by
      unfold callStep; rw [h]
    have hget : getKey (callStep c.1 c.2 k ttl pid s).store k
        = some (.pend ⟨pr.producerId, pr.ttl, c.2 :: pr.waiters⟩) := by
      rw [hstep]; exact getKey_setKey_self s.store k _
    have hburst : callBurst (c :: tl) k ttl pid s
        = callBurst tl k ttl pid (callStep c.1 c.2 k ttl pid s) := rfl
    obtain ⟨pr', h1, h2, h3, h4, h5, h6, h7⟩ :=
      ih (callStep c.1 c.2 k ttl pid s) ⟨pr.producerId, pr.ttl, c.2 :: pr.waiters⟩ hget
    refine ⟨pr', by rwa [hburst], h2, h3, ?_, ?_, ?_, ?_⟩
    · intro x hx
      exact h4 x (List.mem_cons_of_mem _ hx)
    · intro x hx
      rcases List.mem_cons.mp hx with hx | hx
      · subst hx
        exact h4 c.2 (List.mem_cons_self _ _)
      · exact h5 x hx
    · rw [hburst, h6, hstep]
    · rw [hburst, h7, hstep]

theorem find?_map_pair_mem {E V : Type} (ws : List Nat) (cid : Nat)
    (out : Except E V) (h : cid ∈ ws) :
    (ws.map (fun c => (c, out))).find? (fun r => decide (r.1 = cid)) = some (cid, out) := by
  induction ws with
  | nil => cases h
  | cons c tl ih =>
    by_cases hc : c = cid
    · subst hc
      rw [List.map_cons, List.find?_cons_of_pos _ (by simp)]
    · have hmem : cid ∈ tl := by
        rcases List.mem_cons.mp h with h1 | h1
        · exact absurd h1.symm hc
        · exact h1
      rw [List.map_cons, List.find?_cons_of_neg _ (by simp [hc]), ih hmem]

theorem lookupResult_deliver {E V : Type} (env : Nat → Except E V) (now : Nat)
    (k : String) (s : CacheState E V) (pr : PendingRec)
    (hp : getKey s.store k = some (.pend pr)) (cid : Nat) (hc : cid ∈ pr.waiters) :
    lookupResult (deliverStep env now k s) cid = some (env pr.producerId) := by
  unfold deliverStep lookupResult
  rw [hp]
  cases he : env pr.producerId with
  | ok v =>
    dsimp only
    rw [he]
    dsimp only
    rw [List.find?_append, find?_map_pair_mem pr.waiters cid _ hc]
    rfl
  | error e =>
    dsimp only
    rw [he]
    dsimp only
    rw [List.find?_append, find?_map_pair_mem pr.waiters cid _ hc]
    rfl

/-- C1: N concurrent `cached(k, ttl, p)` calls (modelled as a burst of call
events all processed before the production completes) against a store holding
no fresh entry and no in-flight record for `k` invoke the producer exactly
once — the invocation log grows by the single pair `(k, pid)` — and once the
production delivers, every one of the N callers receives the producer's one
outcome (the same value on success, the same failure on rejection). -/
theorem C1_single_flight {E V : Type} (env : Nat → Except E V) (s : CacheState E V)
    (n0 c0 : Nat) (tl : List (Nat × Nat)) (k : String) (ttl pid t : Nat)
    (h : notFreshNoPend n0 k s = true) :
    (callBurst ((n0, c0) :: tl) k ttl pid s).invocations = (k, pid) :: s.invocations ∧
    ∀ cid ∈ ((n0, c0) :: tl).map Prod.snd,
      lookupResult (deliverStep env t k (callBurst ((n0, c0) :: tl) k ttl pid s)) cid
        = some (env pid) := by
  have hstep := callStep_stale n0 c0 k ttl pid s h
  have hget : getKey (callStep n0 c0 k ttl pid s).store k
      = some (.pend ⟨pid, ttl, [c0]⟩) := by
    rw [hstep]; exact getKey_setKey_self s.store k _
  obtain ⟨pr', h1, h2, h3, h4, h5, h6, h7⟩ :=
    callBurst_coalesce k ttl pid tl (callStep n0 c0 k ttl pid s) ⟨pid, ttl, [c0]⟩ hget
  have hburst : callBurst ((n0, c0) :: tl) k ttl pid s
      = callBurst tl k ttl pid (callStep n0 c0 k ttl pid s) := rfl
  constructor
  · rw [hburst, h6, hstep]
  · intro cid hcid
    rw [hburst]
    have hmem : cid ∈ pr'.waiters := by
      rcases List.mem_cons.mp hcid with h0 | h0
      · rw [h0]
        exact h4 c0 (List.mem_cons_self _ _)
      · exact h5 cid h0
    have hres := lookupResult_deliver env t k _ pr' h1 cid hmem
    rw [h2] at hres
    exact hres

/-- Witness for C1 at a concrete input: three concurrent calls (call ids 1, 2,
3, all at instant 0) on an empty cache for key `"k"` with producer 7 whose
outcome is `42`; the producer runs once and all three callers get `42`. -/
theorem C1_single_flight_witness :
    notFreshNoPend 0 "k" (emptyState (E := String) (V := Nat)) = true ∧
    ((callBurst [(0, 1), (0, 2), (0, 3)] "k" 60 7
        (emptyState (E := String) (V := Nat))).invocations = [("k", 7)] ∧
      ∀ cid ∈ ([(0, 1), (0, 2), (0, 3)] : List (Nat × Nat)).map Prod.snd,
        lookupResult
          (deliverStep (fun _ => Except.ok 42) 5 "k"
            (callBurst [(0, 1), (0, 2), (0, 3)] "k" 60 7
              (emptyState (E := String) (V := Nat)))) cid
          = some (Except.ok 42)) :=
  ⟨by decide,
    C1_single_flight (fun _ => Except.ok 42) emptyState 0 1 [(0, 2), (0, 3)] "k" 60 7 5
      (by decide)⟩

theorem deliverStep_ok {E V : Type} (env : Nat → Except E V) (now : Nat)
    (k : String) (s : CacheState E V) (pr : PendingRec) (v : V)
    (hp : getKey s.store k = some (.pend pr)) (he : env pr.producerId = Except.ok v) :
    deliverStep env now k s =
      { store := setKey s.store k (.entry v (now + pr.ttl)),
        invocations := s.invocations,
        results := pr.waiters.map (fun c => (c, Except.ok v)) ++ s.results } := by
  unfold deliverStep
  rw [hp]
  dsimp only
  rw [he]

theorem deliverStep_error {E V : Type} (env : Nat → Except E V) (now : Nat)
    (k : String) (s : CacheState E V) (pr : PendingRec) (e : E)
    (hp : getKey s.store k = some (.pend pr)) (he : env pr.producerId = Except.error e) :
    deliverStep env now k s =
      { store := removeKey s.store k,
        invocations := s.invocations,
        results := pr.waiters.map (fun c => (c, Except.error e)) ++ s.results } := by
  unfold deliverStep
  rw [hp]
  dsimp only
  rw [he]

theorem callStep_fresh {E V : Type} (now cid : Nat) (k : String) (ttl' pid' : Nat)
    (s : CacheState E V) (v : V) (exp : Nat)
    (hg : getKey s.store k = some (.entry v exp)) (h : now < exp) :
    callStep now cid k ttl' pid' s = { s with results := (cid, Except.ok v) :: s.results } := by
  unfold callStep
  rw [hg]
  dsimp only
  rw [if_pos h]

theorem lookupResult_cons {E V : Type} (st : List (String × StoreVal V))
    (inv : List (String × Nat)) (cid : Nat) (out : Except E V)
    (rs : List (Nat × Except E V)) :
    lookupResult ⟨st, inv, (cid, out) :: rs⟩ cid = some out := by
  unfold lookupResult
  rw [List.find?_cons_of_pos _ (by simp)]
  rfl

/-- C2: freshness — once a production for `k` started with ttl `pr.ttl` has
resolved at `t0` with value `v`, a later `cached(k, ttl', p')` call at any
`t1 < t0 + pr.ttl` resolves to the original `v` while leaving the invocation
log (so `p'` is never invoked) and the store untouched. -/
theorem C2_freshness {E V : Type} (env : Nat → Except E V) (s : CacheState E V)
    (k : String) (pr : PendingRec) (v : V) (t0 t1 cid ttl' pid' : Nat)
    (hpend : getKey s.store k = some (.pend pr))
    (hok : env pr.producerId = Except.ok v)
    (ht : t1 < t0 + pr.ttl) :
    lookupResult (callStep t1 cid k ttl' pid' (deliverStep env t0 k s)) cid
      = some (Except.ok v) ∧
    (callStep t1 cid k ttl' pid' (deliverStep env t0 k s)).invocations
      = (deliverStep env t0 k s).invocations ∧
    (callStep t1 cid k ttl' pid' (deliverStep env t0 k s)).store
      = (deliverStep env t0 k s).store := by
  have hd := deliverStep_ok env t0 k s pr v hpend hok
  have hg1 : getKey (deliverStep env t0 k s).store k = some (.entry v (t0 + pr.ttl)) := by
    rw [hd]; exact getKey_setKey_self s.store k _
  have hc := callStep_fresh t1 cid k ttl' pid' _ v (t0 + pr.ttl) hg1 ht
  refine ⟨?_, by rw [hc], by rw [hc]⟩
  rw [hc]
  exact lookupResult_cons _ _ _ _ _

/-- A concrete scenario state used by the C2 witness: producer 7 is in flight
for key `"k"` with ttl 60, awaited by call 1. -/
def w2State : CacheState String Nat := ⟨[("k", .pend ⟨7, 60, [1]⟩)], [("k", 7)], []⟩

/-- A concrete producer environment where every producer yields 42. -/
def w2Env : Nat → Except String Nat := fun _ => Except.ok 42

/-- Witness for C2 at a concrete input: a production for `"k"` with ttl 60 and
producer 7 resolves to 42 at instant 10; a second call (call id 2, any producer
9, ttl 5) at instant 69 < 10 + 60 gets 42, with no new invocation and no store
change. -/
theorem C2_freshness_witness :
    getKey w2State.store "k" = some (.pend ⟨7, 60, [1]⟩) ∧
    w2Env 7 = Except.ok 42 ∧
    69 < 10 + (⟨7, 60, [1]⟩ : PendingRec).ttl ∧
    (lookupResult (callStep 69 2 "k" 5 9 (deliverStep w2Env 10 "k" w2State)) 2
      = some (Except.ok 42) ∧
      (callStep 69 2 "k" 5 9 (deliverStep w2Env 10 "k" w2State)).invocations
        = (deliverStep w2Env 10 "k" w2State).invocations ∧
      (callStep 69 2 "k" 5 9 (deliverStep w2Env 10 "k" w2State)).store
        = (deliverStep w2Env 10 "k" w2State).store) :=
  ⟨by decide, rfl, by decide,
    C2_freshness w2Env w2State "k" ⟨7, 60, [1]⟩ 42 10 69 2 5 9 (by decide) rfl
      (by decide)⟩

/-- C3: expiration — with the store holding an entry for `k` that expired at
`t0 + ttl`, a `cached(k, ttl, p)` call at `t1 ≥ t0 + ttl` invokes the new
producer `p`; when that production succeeds with `v'` at `t2`, the store holds
a replacement entry with `expiresAt = t2 + ttl` and the caller resolves with
`v'`. -/
theorem C3_expiration {E V : Type} (env : Nat → Except E V) (s : CacheState E V)
    (k : String) (v0 : V) (t0 ttl t1 cid pid t2 : Nat) (v' : V)
    (hentry : getKey s.store k = some (.entry v0 (t0 + ttl)))
    (ht : t0 + ttl ≤ t1) (hok : env pid = Except.ok v') :
    (callStep t1 cid k ttl pid s).invocations = (k, pid) :: s.invocations ∧
    getKey (deliverStep env t2 k (callStep t1 cid k ttl pid s)).store k
      = some (.entry v' (t2 + ttl)) ∧
    lookupResult (deliverStep env t2 k (callStep t1 cid k ttl pid s)) cid
      = some (Except.ok v') := by
  have hnf : notFreshNoPend t1 k s = true := by
    unfold notFreshNoPend
    rw [hentry]
    simpa using ht
  have hstep := callStep_stale t1 cid k ttl pid s hnf
  have hget : getKey (callStep t1 cid k ttl pid s).store k
      = some (.pend ⟨pid, ttl, [cid]⟩) := by
    rw [hstep]; exact getKey_setKey_self s.store k _
  refine ⟨by rw [hstep], ?_, ?_⟩
  · have hd := deliverStep_ok env t2 k _ ⟨pid, ttl, [cid]⟩ v' hget hok
    rw [hd]
    exact getKey_setKey_self _ k _
  · have hres := lookupResult_deliver env t2 k _ ⟨pid, ttl, [cid]⟩ hget cid (by simp)
    rw [hok] at hres
    exact hres

/-- A concrete scenario state used by the C3 witness: key `"k"` holds value 5
produced at 0 with ttl 60, so it expired at instant 60. -/
def w3State : CacheState String Nat := ⟨[("k", .entry 5 (0 + 60))], [("k", 7)], []⟩

/-- A concrete producer environment where every producer yields 99. -/
def w3Env : Nat → Except String Nat := fun _ => Except.ok 99

/-- Witness for C3 at a concrete input: the entry for `"k"` is expired at
instant 60; the call there (call id 4, producer 8 whose outcome is 99) invokes
producer 8, and after delivery at instant 61 the store holds 99 expiring at
61 + 60 and the caller gets 99. -/
theorem C3_expiration_witness :
    getKey w3State.store "k" = some (.entry 5 (0 + 60)) ∧
    0 + 60 ≤ 60 ∧
    w3Env 8 = Except.ok 99 ∧
    ((callStep 60 4 "k" 60 8 w3State).invocations = [("k", 8), ("k", 7)] ∧
      getKey (deliverStep w3Env 61 "k" (callStep 60 4 "k" 60 8 w3State)).store "k"
        = some (.entry 99 (61 + 60)) ∧
      lookupResult (deliverStep w3Env 61 "k" (callStep 60 4 "k" 60 8 w3State)) 4
        = some (Except.ok 99)) :=
  ⟨by decide, by decide, rfl,
    C3_expiration w3Env w3State "k" 5 0 60 60 4 8 61 99 (by decide) (by decide) rfl⟩

/-- C4: failures are never cached — when the production in flight for `k`
fails, the store afterwards holds nothing at all for `k` (no entry, no
record), every coalesced waiter rejects with that same failure, and the next
`cached(k, ttl', p')` call starts a brand-new production: it invokes `p'` and
installs a fresh in-flight record, rather than re-surfacing the failure. -/
theorem C4_failure_not_cached {E V : Type} (env : Nat → Except E V)
    (s : CacheState E V) (k : String) (pr : PendingRec) (e : E)
    (t t' cid' ttl' pid' : Nat)
    (hpend : getKey s.store k = some (.pend pr))
    (herr : env pr.producerId = Except.error e) :
    getKey (deliverStep env t k s).store k = none ∧
    (∀ cid ∈ pr.waiters, lookupResult (deliverStep env t k s) cid
      = some (Except.error e)) ∧
    (callStep t' cid' k ttl' pid' (deliverStep env t k s)).invocations
      = (k, pid') :: (deliverStep env t k s).invocations ∧
    getKey (callStep t' cid' k ttl' pid' (deliverStep env t k s)).store k
      = some (.pend ⟨pid', ttl', [cid']⟩) := by
  have hd := deliverStep_error env t k s pr e hpend herr
  have hnone : getKey (deliverStep env t k s).store k = none := by
    rw [hd]
    exact getKey_removeKey_self s.store k
  have hnf : notFreshNoPend t' k (deliverStep env t k s) = true := by
    unfold notFreshNoPend
    rw [hnone]
  have hstep := callStep_stale t' cid' k ttl' pid' _ hnf
  refine ⟨hnone, ?_, by rw [hstep], ?_⟩
  · intro cid hc
    have hres := lookupResult_deliver env t k s pr hpend cid hc
    rw [herr] at hres
    exact hres
  · rw [hstep]
    exact getKey_setKey_self _ k _

/-- A concrete scenario state used by the C4 witness: producer 7 is in flight
for `"k"` with waiters 1 and 2. -/
def w4State : CacheState String Nat := ⟨[("k", .pend ⟨7, 60, [2, 1]⟩)], [("k", 7)], []⟩

/-- A concrete producer environment where every producer fails with "boom". -/
def w4Env : Nat → Except String Nat := fun _ => Except.error "boom"

/-- Witness for C4 at a concrete input: producer 7's production for `"k"` has
waiters 1 and 2 and fails with `"boom"`; after delivery at instant 3 the key
is absent, both waiters get the failure, and a follow-up call (call id 9,
producer 8, ttl 60) at instant 4 invokes producer 8 with a fresh record. -/
theorem C4_failure_not_cached_witness :
    getKey w4State.store "k" = some (.pend ⟨7, 60, [2, 1]⟩) ∧
    w4Env 7 = Except.error "boom" ∧
    (getKey (deliverStep w4Env 3 "k" w4State).store "k" = none ∧
      (∀ cid ∈ (⟨7, 60, [2, 1]⟩ : PendingRec).waiters,
        lookupResult (deliverStep w4Env 3 "k" w4State) cid
          = some (Except.error "boom")) ∧
      (callStep 4 9 "k" 60 8 (deliverStep w4Env 3 "k" w4State)).invocations
        = ("k", 8) :: (deliverStep w4Env 3 "k" w4State).invocations ∧
      getKey (callStep 4 9 "k" 60 8 (deliverStep w4Env 3 "k" w4State)).store "k"
        = some (.pend ⟨8, 60, [9]⟩)) :=
  ⟨by decide, rfl,
    C4_failure_not_cached w4Env w4State "k" ⟨7, 60, [2, 1]⟩ "boom" 3 4 9 60 8
      (by decide) rfl⟩

theorem callStep_frame {E V : Type} (now cid : Nat) (a : String) (ttl pid : Nat)
    (s : CacheState E V) (b : String) (hne : b ≠ a) :
    getKey (callStep now cid a ttl pid s).store b = getKey s.store b ∧
    invocationCount (callStep now cid a ttl pid s) b = invocationCount s b := by
  unfold callStep invocationCount
  cases hg : getKey s.store a with
  | none =>
    dsimp only
    exact ⟨getKey_setKey_other s.store a b _ hne,
      List.countP_cons_of_neg _ _ (by simp [Ne.symm hne])⟩
  | some val =>
    cases val with
    | entry v exp =>
      dsimp only
      by_cases hlt : now < exp
      · rw [if_pos hlt]
        exact ⟨rfl, rfl⟩
      · rw [if_neg hlt]
        exact ⟨getKey_setKey_other s.store a b _ hne,
          List.countP_cons_of_neg _ _ (by simp [Ne.symm hne])⟩
    | pend pr =>
      dsimp only
      exact ⟨getKey_setKey_other s.store a b _ hne, rfl⟩

theorem deliverStep_frame {E V : Type} (env : Nat → Except E V) (now : Nat)
    (a : String) (s : CacheState E V) (b : String) (hne : b ≠ a) :
    getKey (deliverStep env now a s).store b = getKey s.store b ∧
    invocationCount (deliverStep env now a s) b = invocationCount s b := by
  unfold deliverStep invocationCount
  cases hg : getKey s.store a with
  | none => exact ⟨rfl, rfl⟩
  | some val =>
    cases val with
    | entry v exp => exact ⟨rfl, rfl⟩
    | pend pr =>
      dsimp only
      cases env pr.producerId with
      | ok v =>
        exact ⟨getKey_setKey_other s.store a b _ hne, rfl⟩
      | error e =>
        exact ⟨getKey_removeKey_other s.store a b hne, rfl⟩

/-- C5: key isolation — any sequence of events concerning key `a` alone
(`cached(a, ...)` calls and completions of productions for `a`) leaves every
other key `b` untouched: the store state for `b` (its entry or in-flight
record, hence its cached value and freshness) and the number of producer
invocations performed for `b` are exactly what they were before. -/
theorem C5_key_isolation {E V : Type} (env : Nat → Except E V) (s : CacheState E V)
    (a b : String) (hne : b ≠ a) (evs : List CacheEvent)
    (hk : ∀ ev ∈ evs, eventKey ev = some a) :
    getKey (run env evs s).store b = getKey s.store b ∧
    invocationCount (run env evs s) b = invocationCount s b := by
  revert hk
  induction evs generalizing s with
  | nil =>
    intro _
    exact ⟨rfl, rfl⟩
  | cons ev tl ih =>
    intro hk
    have hev : eventKey ev = some a := hk ev (List.mem_cons_self _ _)
    have hrun : run env (ev :: tl) s = run env tl (stepEvent env ev s) := rfl
    have hstep : getKey (stepEvent env ev s).store b = getKey s.store b ∧
        invocationCount (stepEvent env ev s) b = invocationCount s b := by
      cases ev with
      | call now cid k ttl pid =>
        have hka : k = a := by simpa [eventKey] using hev
        subst hka
        exact callStep_frame now cid k ttl pid s b hne
      | deliver now k =>
        have hka : k = a := by simpa [eventKey] using hev
        subst hka
        exact deliverStep_frame env now k s b hne
      | sweep now =>
        simp [eventKey] at hev
    obtain ⟨h1, h2⟩ := ih (stepEvent env ev s) (fun e he => hk e (List.mem_cons_of_mem _ he))
    rw [hrun]
    exact ⟨h1.trans hstep.1, h2.trans hstep.2⟩

/-- A concrete scenario state used by the C5 witness: key `"b"` holds value 5
expiring at 100, with one past invocation for `"b"`. -/
def w5State : CacheState String Nat := ⟨[("b", .entry 5 100)], [("b", 3)], []⟩

/-- A concrete producer environment where every producer yields 0. -/
def w5Env : Nat → Except String Nat := fun _ => Except.ok 0

/-- A concrete event trace concerning only key `"a"`: a call, its delivery,
and a further call. -/
def w5Events : List CacheEvent :=
  [.call 0 1 "a" 60 7, .deliver 1 "a", .call 2 2 "a" 60 8]

/-- Witness for C5 at a concrete input: running the `"a"`-only trace over a
state holding an entry and an invocation for `"b"` leaves `"b"`'s store state
and invocation count unchanged. -/
theorem C5_key_isolation_witness :
    ("b" : String) ≠ "a" ∧
    (∀ ev ∈ w5Events, eventKey ev = some "a") ∧
    (getKey (run w5Env w5Events w5State).store "b" = getKey w5State.store "b" ∧
      invocationCount (run w5Env w5Events w5State) "b" = invocationCount w5State "b") :=
  ⟨by decide, by decide,
    C5_key_isolation w5Env w5State "a" "b" (by decide) w5Events (by decide)⟩

/-- C6: sweeper reclamation — a sweep tick at instant `now` keeps a cache
entry binding if and only if it was present and still fresh (`now < exp`), so
it removes exactly the entries with `expiresAt ≤ now`; in particular an entry
whose ttl has elapsed by the tick is absent from the store's enumerable
entries afterwards; and a sweep tick never removes an in-flight production
record. -/
theorem C6_sweeper {E V : Type} (now : Nat) (s : CacheState E V) (k : String) :
    (∀ (v : V) (exp : Nat), ((k, StoreVal.entry v exp) ∈ (sweepStep now s).store
      ↔ ((k, StoreVal.entry v exp) ∈ s.store ∧ now < exp))) ∧
    (∀ (v : V) (exp : Nat), exp ≤ now →
      (k, StoreVal.entry v exp) ∉ (sweepStep now s).store) ∧
    (∀ pr : PendingRec, ((k, StoreVal.pend pr) ∈ (sweepStep now s).store
      ↔ (k, StoreVal.pend pr) ∈ s.store)) := by
  refine ⟨?_, ?_, ?_⟩
  · intro v exp
    unfold sweepStep
    simp [List.mem_filter, keepAtSweep]
  · intro v exp hle hmem
    unfold sweepStep at hmem
    have hkeep := (List.mem_filter.mp hmem).2
    simp [keepAtSweep] at hkeep
    exact absurd hkeep (Nat.not_lt.mpr hle)
  · intro pr
    unfold sweepStep
    simp [List.mem_filter, keepAtSweep]

end MemCache

namespace CAPI

/-- Modelled from the spec: the CAPI adapter's joining of multi-valued request
parameters (spec §6, "comma-joined"), written as the left fold JS
`Array.prototype.join(',')` performs.  `server/lib/backend-adapters/capi.js`
is not under `src/`; the joined forms are pinned by the adapter tests in
`src/unnamed/part_001`. -/
def joinComma : List String → String
  | [] => ""
  | x :: xs => xs.foldl (fun acc y => acc ++ "," ++ y) x

/-- The spec's wording of comma-joining: a single comma between consecutive
items. -/
def commaJoined : List String → String
  | [] => ""
  | [x] => x
  | x :: y :: ys => x ++ "," ++ commaJoined (y :: ys)

/-- The tail of a comma-joined rendering: each remaining item preceded by a
comma. -/
def restJoin : List String → String
  | [] => ""
  | y :: ys => "," ++ y ++ restJoin ys

theorem foldl_comma_eq (xs : List String) :
    ∀ acc : String, xs.foldl (fun a y => a ++ "," ++ y) acc = acc ++ restJoin xs := by
  induction xs with
  | nil =>
    intro acc
    exact (String.append_empty acc).symm
  | cons y ys ih =>
    intro acc
    have h1 : (y :: ys).foldl (fun a z => a ++ "," ++ z) acc
        = ys.foldl (fun a z => a ++ "," ++ z) (acc ++ "," ++ y) := rfl
    have h2 : restJoin (y :: ys) = "," ++ y ++ restJoin ys := rfl
    rw [h1, ih (acc ++ "," ++ y), h2]
    simp [String.append_assoc]

theorem commaJoined_cons (x : String) (xs : List String) :
    commaJoined (x :: xs) = x ++ restJoin xs := by
  induction xs generalizing x with
  | nil =>
    unfold commaJoined restJoin
    exact (String.append_empty x).symm
  | cons y ys ih =>
    unfold commaJoined restJoin
    rw [ih y]
    simp [String.append_assoc]

theorem joinComma_eq_commaJoined (xs : List String) :
    joinComma xs = commaJoined xs := by
  cases xs with
  | nil => rfl
  | cons x ys =>
    have h : joinComma (x :: ys) = ys.foldl (fun acc y => acc ++ "," ++ y) x := rfl
    rw [h, foldl_comma_eq ys x, commaJoined_cons]

/-- Modelled from the spec: the cache key and ttl the CAPI adapter's
`content(uuids)` operation passes to `cached` — key
`"capi.content.<comma-joined uuids>"`, ttl 60 — pinned by the test asserting
`calledWith('capi.content.content-one,content-two', 60)`. -/
def content (ids : List String) : String × Nat :=
  ("capi.content." ++ joinComma ids, 60)

/-- Modelled from the spec: key and ttl of the adapter's `list(uuid)` —
`"capi.list.<uuid>"`, ttl 60 — pinned by the test asserting
`calledWith('capi.list.73667f46-...', 60)`. -/
def list (uuid : String) : String × Nat :=
  ("capi.list." ++ uuid, 60)

/-- Modelled from the spec: key and ttl of `listOfType(listType, concept)` —
`"capi.list-of-type.<listType>.<concept>"`, ttl 60 — pinned by the test
asserting `calledWith('capi.list-of-type.<listType>.<concept>', 60)`. -/
def listOfType (listType concept : String) : String × Nat :=
  ("capi.list-of-type." ++ listType ++ "." ++ concept, 60)

/-- The colon-separated `name=value` option segments appearing at the end of
search cache keys (`":limit=50:since=2016-03-21"` in the tests). -/
def optSegments : List (String × String) → String
  | [] => ""
  | (n, v) :: tl => ":" ++ n ++ "=" ++ v ++ optSegments tl

/-- Modelled from the spec: key and ttl of `search(field, ids, opts)` —
`"capi.search:<field>=<comma-joined ids><opt-segments>"`, ttl 600 — pinned by
the tests asserting
`calledWith('capi.search:metadata.idV1=topicId:limit=50:since=2016-03-21', 600)`
and the comma-joined multi-id variant. -/
def search (field : String) (ids : List String)
    (opts : List (String × String)) : String × Nat :=
  ("capi.search:" ++ field ++ "=" ++ joinComma ids ++ optSegments opts, 600)

/-- Modelled from the spec: key and ttl of `searchCount(field, ids, opts)` —
`"capi.search-count:<field>=<comma-joined ids><opt-segments>"`, ttl 600 —
pinned by the tests asserting
`calledWith('capi.search-count:metadata.idV1=topicId:since=2016-03-21', 600)`. -/
def searchCount (field : String) (ids : List String)
    (opts : List (String × String)) : String × Nat :=
  ("capi.search-count:" ++ field ++ "=" ++ joinComma ids ++ optSegments opts, 600)

/-- The claim's key convention "<namespace>.<operation>.<joined-params>":
the key is the namespace, the operation name and the joined parameters, in
that order, separated by dots. -/
def dotConventionKey (ns op params key : String) : Prop :=
  key = ns ++ "." ++ op ++ "." ++ params

/-- C7 counterexample: at the concrete input of the tests, `search` produces
the key `"capi.search:metadata.idV1=topicId:limit=50:since=2016-03-21"`
(operation and parameters separated by a colon, with `name=value` segments),
so the key does not follow the claimed dot convention
"<namespace>.<operation>.<joined-params>" — there is no parameter string that
makes it `"capi" ++ "." ++ "search" ++ "." ++ params`, since its character
after the operation name is `':'`, not `'.'`. -/
theorem C7_counterexample :
    (search "metadata.idV1" ["topicId"] [("limit", "50"), ("since", "2016-03-21")]).1
      = "capi.search:metadata.idV1=topicId:limit=50:since=2016-03-21" ∧
    (search "metadata.idV1" ["topicId"] [("limit", "50"), ("since", "2016-03-21")]).2
      = 600 ∧
    ¬ ∃ params : String, dotConventionKey "capi" "search" params
      (search "metadata.idV1" ["topicId"] [("limit", "50"), ("since", "2016-03-21")]).1 := by
  refine ⟨by decide, rfl, ?_⟩
  rintro ⟨params, hp⟩
  unfold dotConventionKey at hp
  have hd : (search "metadata.idV1" ["topicId"]
        [("limit", "50"), ("since", "2016-03-21")]).1.data
      = ("capi" ++ "." ++ "search" ++ "." : String).data ++ params.data :=
    congrArg String.data hp
  have h11 := congrArg (fun l => l.get? 11) hd
  simp [List.get?] at h11

/-- C7 (amended): the `content`, `list` and `listOfType` cache keys follow the
dot convention "<namespace>.<operation>.<joined-params>" with multi-valued
parameters comma-joined (`content(['a','b'])` uses key `"capi.content.a,b"`),
with ttl 60; `search` and `searchCount` use colon-separated keys
"<namespace>.<operation>:<field>=<comma-joined ids><:opt=val segments>", with
ttl 600. -/
theorem C7_keys_and_ttls (ids : List String) (uuid listType concept field : String)
    (opts : List (String × String)) :
    dotConventionKey "capi" "content" (commaJoined ids) (content ids).1 ∧
    (content ids).2 = 60 ∧
    dotConventionKey "capi" "list" uuid (list uuid).1 ∧
    (list uuid).2 = 60 ∧
    dotConventionKey "capi" "list-of-type" (listType ++ "." ++ concept)
      (listOfType listType concept).1 ∧
    (listOfType listType concept).2 = 60 ∧
    (search field ids opts).1
      = "capi.search" ++ ":" ++ field ++ "=" ++ commaJoined ids ++ optSegments opts ∧
    (search field ids opts).2 = 600 ∧
    (searchCount field ids opts).1
      = "capi.search-count" ++ ":" ++ field ++ "=" ++ commaJoined ids ++ optSegments opts ∧
    (searchCount field ids opts).2 = 600 := by
  have hc : ("capi" ++ "." ++ "content" ++ "." : String) = "capi.content." := by decide
  have hl : ("capi" ++ "." ++ "list" ++ "." : String) = "capi.list." := by decide
  have hlt : ("capi" ++ "." ++ "list-of-type" ++ "." : String) = "capi.list-of-type." := by
    decide
  have hs : ("capi.search" ++ ":" : String) = "capi.search:" := by decide
  have hsc : ("capi.search-count" ++ ":" : String) = "capi.search-count:" := by decide
  refine ⟨?_, rfl, ?_, rfl, ?_, rfl, ?_, rfl, ?_, rfl⟩
  · unfold dotConventionKey content
    rw [hc, joinComma_eq_commaJoined]
  · unfold dotConventionKey list
    rw [hl]
  · unfold dotConventionKey listOfType
    rw [hlt]
    simp [String.append_assoc]
  · unfold search
    rw [hs, joinComma_eq_commaJoined]
  · unfold searchCount
    rw [hsc, joinComma_eq_commaJoined]

/-- An upstream HTTP response as the adapter observes it: numeric status and
status text. -/
structure HttpResponse where
  status : Nat
  statusText : String
  deriving DecidableEq, Repr

/-- Whether the response status is a 2xx success. -/
def respOk (r : HttpResponse) : Bool :=
  decide (200 ≤ r.status) && decide (r.status < 300)

/-- Modelled from the spec: the descriptive failure message `listOfType`
builds for a non-2xx upstream response (spec §7; pinned by the test expecting
rejection with `COCO list-of-type responded with "Not Found" (404)`).
`server/lib/backend-adapters/capi.js` is not under `src/`. -/
def listOfTypeErrorMessage (r : HttpResponse) : String :=
  "COCO list-of-type responded with \"" ++ r.statusText ++ "\" ("
    ++ toString r.status ++ ")"

/-- Modelled from the spec: the outcome the `listOfType` producer delivers to
the cache boundary — the parsed body on a 2xx response, otherwise a rejection
carrying the descriptive message. -/
def listOfTypeOutcome {V : Type} (r : HttpResponse) (body : V) : Except String V :=
  if respOk r then Except.ok body else Except.error (listOfTypeErrorMessage r)

/-- C8: a non-2xx upstream response makes the adapter reject with its
descriptive failure before the cache boundary, and the cache neither inspects
nor transforms that failure: the production in flight for `k` whose producer
delivers the adapter's outcome rejects every coalesced waiter with exactly the
adapter's message. -/
theorem C8_upstream_failure {V : Type} (r : HttpResponse) (body : V)
    (env : Nat → Except String V) (s : MemCache.CacheState String V) (k : String)
    (pr : MemCache.PendingRec) (t : Nat)
    (hr : respOk r = false)
    (hpend : MemCache.getKey s.store k = some (.pend pr))
    (henv : env pr.producerId = listOfTypeOutcome r body) :
    listOfTypeOutcome r body = Except.error (listOfTypeErrorMessage r) ∧
    ∀ cid ∈ pr.waiters,
      MemCache.lookupResult (MemCache.deliverStep env t k s) cid
        = some (Except.error (listOfTypeErrorMessage r)) := by
  have hout : listOfTypeOutcome r body = Except.error (listOfTypeErrorMessage r) := by
    unfold listOfTypeOutcome
    rw [hr]
    rfl
  refine ⟨hout, ?_⟩
  intro cid hc
  have hres := MemCache.lookupResult_deliver env t k s pr hpend cid hc
  rw [henv, hout] at hres
  exact hres

/-- The concrete response of the `listOfType` unsuccessful-response test. -/
def notFoundResponse : HttpResponse := ⟨404, "Not Found"⟩

/-- A concrete state for the C8 witness: producer 7 (running the `listOfType`
fetch) is in flight for the key `"capi.list-of-type.t.c"`, awaited by call 1. -/
def w8State : MemCache.CacheState String Nat :=
  ⟨[("capi.list-of-type.t.c", .pend ⟨7, 60, [1]⟩)], [("capi.list-of-type.t.c", 7)], []⟩

/-- The C8 witness producer environment: every producer delivers the
`listOfType` outcome for the 404 response. -/
def w8Env : Nat → Except String Nat := fun _ => listOfTypeOutcome notFoundResponse 0

/-- Witness for C8 at the test's concrete input: the 404 "Not Found" response
yields the exact message of the test, and the waiter of the in-flight
production receives exactly that failure. -/
theorem C8_upstream_failure_witness :
    listOfTypeErrorMessage notFoundResponse
      = "COCO list-of-type responded with \"Not Found\" (404)" ∧
    respOk notFoundResponse = false ∧
    MemCache.getKey w8State.store "capi.list-of-type.t.c" = some (.pend ⟨7, 60, [1]⟩) ∧
    w8Env 7 = listOfTypeOutcome notFoundResponse 0 ∧
    (listOfTypeOutcome notFoundResponse 0
        = Except.error (listOfTypeErrorMessage notFoundResponse) ∧
      ∀ cid ∈ (⟨7, 60, [1]⟩ : MemCache.PendingRec).waiters,
        MemCache.lookupResult (MemCache.deliverStep w8Env 3 "capi.list-of-type.t.c" w8State) cid
          = some (Except.error (listOfTypeErrorMessage notFoundResponse))) :=
  ⟨by decide, by decide, by decide, rfl,
    C8_upstream_failure notFoundResponse 0 w8Env w8State "capi.list-of-type.t.c"
      ⟨7, 60, [1]⟩ 3 (by decide) (by decide) rfl⟩

end CAPI

namespace Backends

/-!
Embedding of `server/lib/backend-adapters/index.js` (`src/unnamed/part_000`):
the module constructs one `Cache(12 * 60 * 60, 30 * 60)` and one instance of
each adapter at load time, and exports a factory that picks the mock or real
`capi`/`liveblog` instance by `flags.mockFrontPage`.
-/

/-- The adapter instances the backends module constructs, one per module-level
`const`. -/
inductive Adapter where
  | capi
  | mockCapi
  | fastFT
  | hui
  | liveblog
  | mockLiveblog
  | myft
  | popularApi
  | popularFTContent
  | video
  deriving DecidableEq, Repr

/-- A cache construction: `Cache(defaultLifetime, sweepInterval)`, in
seconds. -/
structure CacheConfig where
  defaultLifetime : Nat
  sweepInterval : Nat
  deriving DecidableEq, Repr

/-- `const memCache = new Cache(12 * 60 * 60, 30 * 60)`. -/
def memCache : CacheConfig := ⟨12 * 60 * 60, 30 * 60⟩

/-- The cache instances the module constructs at load time, by identity:
`memCache` (id 0) is the only one. -/
def cacheInstances : List (Nat × CacheConfig) := [(0, memCache)]

/-- The cache instance id each adapter's constructor receives: every
cache-using adapter is constructed with `memCache` (id 0); `mockCapi` and
`mockLiveblog` wrap the real adapters and `fastFT` receives
`sources.fastFt`, so none of those three receives a cache. -/
def adapterCacheId : Adapter → Option Nat
  | .capi => some 0
  | .mockCapi => none
  | .fastFT => none
  | .hui => some 0
  | .liveblog => some 0
  | .mockLiveblog => none
  | .myft => some 0
  | .popularApi => some 0
  | .popularFTContent => some 0
  | .video => some 0

/-- The cache-using adapters named by the module. -/
def cacheUsingAdapters : List Adapter :=
  [.capi, .hui, .liveblog, .myft, .popularApi, .popularFTContent, .video]

/-- C9: the backends module constructs exactly one Memoizing Cache, with
default lifetime `12 * 60 * 60 = 43200` seconds and sweep interval
`30 * 60 = 1800` seconds, and every cache-using adapter (capi, hui, liveblog,
myft, popularApi, popularFTContent, video) is constructed with that same
instance (id 0), so all their entries share a single store and key
namespace. -/
theorem C9_shared_cache :
    memCache.defaultLifetime = 43200 ∧
    memCache.sweepInterval = 1800 ∧
    cacheInstances.length = 1 ∧
    (cacheInstances.find? (fun p => decide (p.1 = 0))).map Prod.snd
      = some ⟨43200, 1800⟩ ∧
    (∀ a ∈ cacheUsingAdapters, adapterCacheId a = some 0) ∧
    (∀ a : Adapter, adapterCacheId a = none ∨ adapterCacheId a = some 0) := by
  refine ⟨rfl, rfl, rfl, rfl, by decide, ?_⟩
  intro a
  cases a <;> simp [adapterCacheId]

/-- The flags object passed to the factory; in the source any truthy
`flags.mockFrontPage` selects the mocks, modelled as a Bool. -/
structure Flags where
  mockFrontPage : Bool
  deriving DecidableEq, Repr

/-- The default flags object: the source's `(flags = {})`, whose absent
`mockFrontPage` is falsy. -/
def defaultFlags : Flags := ⟨false⟩

/-- The record the backends factory returns: one adapter instance per
field. -/
structure Backend where
  capi : Adapter
  fastFT : Adapter
  hui : Adapter
  liveblog : Adapter
  myft : Adapter
  popularApi : Adapter
  popularFTContent : Adapter
  video : Adapter
  deriving DecidableEq, Repr

/-- The module's default export:
`(flags = {}) => ({ capi: flags.mockFrontPage ? mockCapi : capi, ... })`. -/
def backendFor (flags : Flags) : Backend :=
  { capi := if flags.mockFrontPage then .mockCapi else .capi
    fastFT := .fastFT
    hui := .hui
    liveblog := if flags.mockFrontPage then .mockLiveblog else .liveblog
    myft := .myft
    popularApi := .popularApi
    popularFTContent := .popularFTContent
    video := .video }

/-- Calling the factory with no argument: the default parameter supplies the
empty flags object. -/
def backendNoArg : Backend := backendFor defaultFlags

/-- C10: the factory returns the mock CAPI and mock Liveblog instances as its
`capi` and `liveblog` fields exactly when `flags.mockFrontPage` is truthy
(and the real instances otherwise), returns the same pre-constructed
instances of every other adapter regardless of flags, and calling it with no
argument behaves as calling it with the empty flags object. -/
theorem C10_factory (f : Flags) :
    ((backendFor f).capi = .mockCapi ↔ f.mockFrontPage = true) ∧
    ((backendFor f).liveblog = .mockLiveblog ↔ f.mockFrontPage = true) ∧
    ((backendFor f).capi = .capi ↔ f.mockFrontPage = false) ∧
    ((backendFor f).liveblog = .liveblog ↔ f.mockFrontPage = false) ∧
    (backendFor f).fastFT = .fastFT ∧
    (backendFor f).hui = .hui ∧
    (backendFor f).myft = .myft ∧
    (backendFor f).popularApi = .popularApi ∧
    (backendFor f).popularFTContent = .popularFTContent ∧
    (backendFor f).video = .video ∧
    backendNoArg = backendFor ⟨false⟩ := by
  obtain ⟨m⟩ := f
  cases m <;> decide

end Backends
